import Mathlib

/-!
Shallow embedding of the online successive-halving scheduler from
`creme/model_selection/sh.py` and of the regression leaf node
`LearningNodeMean` from `creme/tree/_nodes/htr_nodes.py`.

Learners and metrics are collaborators behind a train-one / predict-one and
update / get contract, so the scheduler is embedded generically over an `Ops`
record of those collaborator functions; Python floats for metric values are
modelled as rationals.  Python exceptions are modelled with `Except`.
-/

namespace SH

/-- Python exceptions that `SuccessiveHalving.__init__` can raise:
the explicit `ValueError` of the metric-compatibility loop, the
`ValueError: math domain error` of `math.log` on a nonpositive argument,
and `ZeroDivisionError` (from `math.log(n, 1)` or from the division by
`s * ceil(log(n, eta)) = 0`). -/
inductive PyErr : Type
  | configValueError : PyErr
  | mathDomainError : PyErr
  | zeroDivisionError : PyErr
deriving DecidableEq

/-- Collaborator contract consumed by the scheduler: a learner of type `M`
(`predict_one`, `predict_proba_one`, `fit_one`) and a metric of type `Mr`
(`update`, `get`, `bigger_is_better`, `works_with`, `requires_labels`),
plus the `isinstance(model, base.Classifier)` test on learners. -/
structure Ops (M Mr X Y P : Type) where
  predictOne : M → X → P
  predictProbaOne : M → X → P
  fitOneM : M → X → Y → M
  update : Mr → Y → P → Mr
  get : Mr → ℚ
  biggerIsBetter : Bool
  worksWith : M → Bool
  requiresLabels : Bool
  isClassifier : M → Bool

/-- Mutable attributes of a `SuccessiveHalving` instance (the `self._*`
fields of `sh.py`), after construction. -/
structure SHState (M Mr : Type) where
  models : List M
  metrics : List Mr
  n : ℕ
  s : ℕ
  nRungs : ℕ
  rankings : List ℕ
  r : ℕ
  budgetUsed : ℕ
  nIterations : ℕ
  bestModelIdx : ℕ
  budget : ℕ
  eta : ℕ
  usesProba : Bool
deriving DecidableEq

/-- Embedding of `math.ceil(math.log(n, b))` for natural `b`, `n` in exact
arithmetic: the least `k` with `n ≤ b ^ k` (searched among `0..n`, which
suffices since `b ^ n ≥ n` for `b ≥ 2`).  The float rounding of Python's
`math.log` at exact powers is elided. -/
def ceilLogNat (b n : ℕ) : ℕ :=
  ((List.range (n + 1)).find? (fun k => n ≤ b ^ k)).getD 0

/-- Insertion step of the stable sort modelling Python `sorted`: `a` goes in
front of the first element it compares `le` to, so that on ties the element
that came earlier in the input stays earlier. -/
def pyInsert (le : ℕ → ℕ → Bool) (a : ℕ) : List ℕ → List ℕ
  | [] => [a]
  | b :: t => if le a b then a :: b :: t else b :: pyInsert le a t

/-- Stable sort modelling Python `sorted(..., key=..., reverse=...)` once the
key and direction have been folded into the comparator `le`. -/
def pySort (le : ℕ → ℕ → Bool) : List ℕ → List ℕ
  | [] => []
  | a :: t => pyInsert le a (pySort le t)

/-- Comparator of the ranking sort of `fit_one` (lines 71-75): ascending in
the metric value, descending when `bigger_is_better` (Python `reverse=True`);
ties keep prior order either way. -/
def rankLe {M Mr X Y P : Type} (ops : Ops M Mr X Y P) (value : ℕ → ℚ)
    (i j : ℕ) : Bool :=
  if ops.biggerIsBetter then decide (value j ≤ value i)
  else decide (value i ≤ value j)

/-- Dispatch fixed by `self._pred_func` (lines 38-41): the probabilistic entry
point when the flag is set, the point prediction otherwise. -/
def predFunc {M Mr X Y P : Type} (ops : Ops M Mr X Y P) (usesProba : Bool)
    (m : M) (x : X) : P :=
  if usesProba then ops.predictProbaOne m x else ops.predictOne m x

/-- Strict-improvement test of lines 59-60: `>` on metric values when
`bigger_is_better`, `<` otherwise, applied as `op(value_i, value_best)`. -/
def better {M Mr X Y P : Type} (ops : Ops M Mr X Y P) (vi vb : ℚ) : Bool :=
  if ops.biggerIsBetter then decide (vb < vi) else decide (vi < vb)

/-- Body of the per-candidate loop of `fit_one` (lines 50-61) for one active
candidate id `i`, threading `(models, metrics, best_model_idx)`: predict with
the current model, feed the metric, train the model, then possibly reassign
the best-so-far index. -/
def candStep {M Mr X Y P : Type} [Inhabited M] [Inhabited Mr]
    (ops : Ops M Mr X Y P) (usesProba : Bool) (x : X) (y : Y)
    (acc : List M × List Mr × ℕ) (i : ℕ) : List M × List Mr × ℕ :=
  let ms := acc.1
  let mets := acc.2.1
  let best := acc.2.2
  let yPred := predFunc ops usesProba (ms.getD i default) x
  let mets2 := mets.set i (ops.update (mets.getD i default) y yPred)
  let ms2 := ms.set i (ops.fitOneM (ms.getD i default) x y)
  let best2 :=
    if i ≠ best ∧ better ops (ops.get (mets2.getD i default))
        (ops.get (mets2.getD best default)) = true
    then i else best
  (ms2, mets2, best2)

/-- Embedding of `SuccessiveHalving.fit_one` (lines 48-95): loop over the
active ranking, bump the cumulative iteration count, and when `s > 1` and the
count reaches `r`, advance the rung: re-sort the active ranking by metric
value, shrink `s` to `ceil(s / eta)` and recompute `r`. -/
def fitOne {M Mr X Y P : Type} [Inhabited M] [Inhabited Mr]
    (ops : Ops M Mr X Y P) (st : SHState M Mr) (x : X) (y : Y) :
    SHState M Mr :=
  let res := (st.rankings.take st.s).foldl
    (candStep ops st.usesProba x y) (st.models, st.metrics, st.bestModelIdx)
  let nIt := st.nIterations + 1
  if 1 < st.s ∧ nIt = st.r then
    let sorted := pySort
      (rankLe ops (fun i => ops.get (res.2.1.getD i default)))
      (st.rankings.take st.s)
    let cutoff := (st.s + st.eta - 1) / st.eta
    { st with
      models := res.1, metrics := res.2.1, bestModelIdx := res.2.2,
      nIterations := nIt,
      nRungs := st.nRungs + 1,
      budgetUsed := st.budgetUsed + st.s * st.r,
      rankings := sorted ++ st.rankings.drop st.s,
      s := cutoff,
      r := st.budget / (cutoff * ceilLogNat st.eta st.n) }
  else
    { st with
      models := res.1, metrics := res.2.1, bestModelIdx := res.2.2,
      nIterations := nIt }

/-- Embedding of `SuccessiveHalving.__init__` (lines 14-41): the
metric-compatibility loop raises `ValueError`; then line 33 computes
`floor(budget / (n * ceil(log(n, eta))))`, which raises a math-domain
`ValueError` when `n = 0` or `eta = 0`, and `ZeroDivisionError` when
`eta = 1` (zero logarithm of the base) or `n = 1` (zero denominator).
The `_pred_func` flag is taken from the loop leftover variable `model`,
i.e. from the last learner of the list. -/
def initSH {M Mr X Y P : Type} (ops : Ops M Mr X Y P) (models : List M)
    (metric : Mr) (budget eta : ℕ) : Except PyErr (SHState M Mr) :=
  if models.any (fun m => !ops.worksWith m) then .error .configValueError
  else
    let n := models.length
    if n = 0 then .error .mathDomainError
    else if eta = 0 then .error .mathDomainError
    else if eta = 1 then .error .zeroDivisionError
    else if n = 1 then .error .zeroDivisionError
    else .ok
      { models := models
        metrics := List.replicate n metric
        n := n
        s := n
        nRungs := 0
        rankings := List.range n
        r := budget / (n * ceilLogNat eta n)
        budgetUsed := 0
        nIterations := 0
        bestModelIdx := 0
        budget := budget
        eta := eta
        usesProba := (match models.getLast? with
          | some m => ops.isClassifier m
          | none => false) && !ops.requiresLabels }

/-- Iterated `fit_one` on a fixed observation stream element. -/
def fitMany {M Mr X Y P : Type} [Inhabited M] [Inhabited Mr]
    (ops : Ops M Mr X Y P) (x : X) (y : Y) : ℕ → SHState M Mr → SHState M Mr
  | 0, st => st
  | k + 1, st => fitMany ops x y k (fitOne ops st x y)

/-- The metric value currently held by the best-so-far candidate. -/
def bestValue {M Mr X Y P : Type} [Inhabited Mr] (ops : Ops M Mr X Y P)
    (st : SHState M Mr) : ℚ :=
  ops.get (st.metrics.getD st.bestModelIdx default)

/-- Degenerate collaborator instance: unit learners and unit metrics whose
value is constantly `0`, every learner compatible, no classifier. -/
def opsU : Ops Unit Unit Unit Unit Unit where
  predictOne := fun _ _ => ()
  predictProbaOne := fun _ _ => ()
  fitOneM := fun m _ _ => m
  update := fun mr _ _ => mr
  get := fun _ => 0
  biggerIsBetter := true
  worksWith := fun _ => true
  requiresLabels := false
  isClassifier := fun _ => false

/-- The reference configuration: `n = 10` unit candidates, `budget = 2000`,
`eta = 2`; `r = 2000 / (10 * 4) = 50`. -/
def st10 : SHState Unit Unit where
  models := List.replicate 10 ()
  metrics := List.replicate 10 ()
  n := 10
  s := 10
  nRungs := 0
  rankings := List.range 10
  r := 50
  budgetUsed := 0
  nIterations := 0
  bestModelIdx := 0
  budget := 2000
  eta := 2
  usesProba := false

/-- The reference run after `k` observations. -/
def runU (k : ℕ) : SHState Unit Unit := fitMany opsU () () k st10

/-- Counter-level view of one `fit_one` call for unit collaborators: the
candidate loop moves no data, so only the iteration, rung and budget fields
evolve. -/
def stepU (st : SHState Unit Unit) : SHState Unit Unit :=
  if 1 < st.s ∧ st.nIterations + 1 = st.r then
    { st with
      nIterations := st.nIterations + 1,
      nRungs := st.nRungs + 1,
      budgetUsed := st.budgetUsed + st.s * st.r,
      s := (st.s + st.eta - 1) / st.eta,
      r := st.budget / (((st.s + st.eta - 1) / st.eta) * ceilLogNat st.eta st.n) }
  else { st with nIterations := st.nIterations + 1 }

/-- Reference-run state right after the first rung (fires at cumulative
iteration `50 = r(10)`): `10 → 5` survivors, `budget_used = 500`,
`r(5) = 2000 / (5 * 4) = 100`. -/
def stA : SHState Unit Unit :=
  { st10 with nIterations := 50, nRungs := 1, budgetUsed := 500, s := 5, r := 100 }

/-- Reference-run state right after the second rung (fires at cumulative
iteration `100 = r(5)`, i.e. 50 observations after the first rung):
`5 → 3`, `budget_used = 1000`, `r(3) = 166`. -/
def stB : SHState Unit Unit :=
  { stA with nIterations := 100, nRungs := 2, budgetUsed := 1000, s := 3, r := 166 }

/-- Reference-run state right after the third rung (cumulative iteration
`166 = r(3)`): `3 → 2`, `budget_used = 1498`, `r(2) = 250`. -/
def stC : SHState Unit Unit :=
  { stB with nIterations := 166, nRungs := 3, budgetUsed := 1498, s := 2, r := 250 }

/-- Reference-run state right after the fourth rung (cumulative iteration
`250 = r(2)`): `2 → 1`, `budget_used = 1998`, `r(1) = 500`; converged. -/
def stD : SHState Unit Unit :=
  { stC with nIterations := 250, nRungs := 4, budgetUsed := 1998, s := 1, r := 500 }

/-- State produced by construction with `n = 10`, `budget = 1`, `eta = 2`:
the rung length comes out as `r = 1 / 40 = 0`. -/
def stZ : SHState Unit Unit := { st10 with budget := 1, r := 0 }

/-- The cutoff map of lines 78 and 92, `ceil(s / eta)`, over an exact
rational elimination rate. -/
def cutoffQ (eta : ℚ) (s : ℕ) : ℕ := ⌈(s : ℚ) / eta⌉₊

/-- Collaborator instance whose metric stores the last observed label
(`update(y_true, y_pred)` keeps `y_true`), with higher-is-better
orientation; learners are trivial and always predict `0`. -/
def opsLast : Ops Unit ℚ Unit ℚ ℚ where
  predictOne := fun _ _ => 0
  predictProbaOne := fun _ _ => 0
  fitOneM := fun m _ _ => m
  update := fun _ y _ => y
  get := fun v => v
  biggerIsBetter := true
  worksWith := fun _ => true
  requiresLabels := false
  isClassifier := fun _ => false

/-- State built by `initSH opsLast [(), ()] 0 100 2`: two candidates,
`r = 100 / (2 * 1) = 50`. -/
def stL : SHState Unit ℚ where
  models := [(), ()]
  metrics := List.replicate 2 0
  n := 2
  s := 2
  nRungs := 0
  rankings := List.range 2
  r := 50
  budgetUsed := 0
  nIterations := 0
  bestModelIdx := 0
  budget := 100
  eta := 2
  usesProba := false

/-- Collaborator instance over `Bool` learners whose declared capability is
the learner value itself (`isinstance(model, base.Classifier)` returns the
Boolean), used to probe how `_pred_func` is chosen. -/
def opsB : Ops Bool Unit Unit Unit Unit where
  predictOne := fun _ _ => ()
  predictProbaOne := fun _ _ => ()
  fitOneM := fun m _ _ => m
  update := fun mr _ _ => mr
  get := fun _ => 0
  biggerIsBetter := true
  worksWith := fun _ => true
  requiresLabels := false
  isClassifier := fun b => b

/-- Observe the `_pred_func` choice of a construction attempt. -/
def usesProbaOf {M Mr : Type} (e : Except PyErr (SHState M Mr)) : Option Bool :=
  match e with
  | .ok st => some st.usesProba
  | .error _ => none

/-- State built by `initSH opsB [true, false] () 100 2`: a classifier-capable
learner followed by a plain one; the flag comes out `false` because only the
last learner is consulted. -/
def stBF : SHState Bool Unit where
  models := [true, false]
  metrics := List.replicate 2 ()
  n := 2
  s := 2
  nRungs := 0
  rankings := List.range 2
  r := 50
  budgetUsed := 0
  nIterations := 0
  bestModelIdx := 0
  budget := 100
  eta := 2
  usesProba := false

/-- Collaborator instance where candidate `true` always predicts `1` and
candidate `false` predicts `0`, and the metric stores the last prediction. -/
def opsP : Ops Bool ℚ Unit Unit ℚ where
  predictOne := fun m _ => if m then 1 else 0
  predictProbaOne := fun m _ => if m then 1 else 0
  fitOneM := fun m _ _ => m
  update := fun _ _ p => p
  get := fun v => v
  biggerIsBetter := true
  worksWith := fun _ => true
  requiresLabels := false
  isClassifier := fun _ => false

/-- State built by `initSH opsP [false, true] 0 100 2`. -/
def stP : SHState Bool ℚ where
  models := [false, true]
  metrics := List.replicate 2 0
  n := 2
  s := 2
  nRungs := 0
  rankings := List.range 2
  r := 50
  budgetUsed := 0
  nIterations := 0
  bestModelIdx := 0
  budget := 100
  eta := 2
  usesProba := false

end SH

namespace HTR

/-- Python exceptions reachable from `LearningNodeMean.predict_one` and
`total_weight`: a missing dictionary key, and float division by zero. -/
inductive Err : Type
  | keyError : Err
  | zeroDivisionError : Err
deriving DecidableEq

/-- The `stats` dictionary of a learning node: finitely many numeric slots
keyed by small naturals (0: weight sum, 1: weighted target sum, 2: weighted
squared target sum), modelled as an association list. -/
abbrev Stats : Type := List (ℕ × ℚ)

/-- Python `d[k]`: the value at `k`, or `KeyError`. -/
def statsGet (st : Stats) (k : ℕ) : Except Err ℚ :=
  match st.lookup k with
  | some v => .ok v
  | none => .error .keyError

/-- Python `d[k] = v`: replace in place or append a new key. -/
def setStat : Stats → ℕ → ℚ → Stats
  | [], k, v => [(k, v)]
  | (k2, v2) :: t, k, v =>
      if k2 = k then (k, v) :: t else (k2, v2) :: setStat t k v

/-- Embedding of `LearningNodeMean.update_stats` (lines 45-53).  The `try`
block increments slots 0, 1, 2 in order; a `KeyError` from any of the three
accesses jumps to the `except` block, which overwrites all three slots with
fresh values (discarding any increments already made), so the net effect
splits on whether all three keys are present. -/
def updateStats (st : Stats) (y sampleWeight : ℚ) : Stats :=
  match st.lookup 0, st.lookup 1, st.lookup 2 with
  | some s0, some s1, some s2 =>
      setStat (setStat (setStat st 0 (s0 + sampleWeight))
        1 (s1 + y * sampleWeight)) 2 (s2 + y * y * sampleWeight)
  | _, _, _ =>
      setStat (setStat (setStat st 0 sampleWeight)
        1 (y * sampleWeight)) 2 (y * y * sampleWeight)

/-- Embedding of `LearningNodeMean.predict_one` (lines 55-56):
`self.stats[1] / self.stats[0] if self.stats else 0.` with Python's
evaluation order (slot 1, then slot 0, then the division, which raises
`ZeroDivisionError` on a zero weight sum). -/
def predictOne (st : Stats) : Except Err ℚ :=
  if st.isEmpty then .ok 0
  else
    match statsGet st 1 with
    | .error e => .error e
    | .ok s1 =>
      match statsGet st 0 with
      | .error e => .error e
      | .ok s0 =>
        if s0 = 0 then .error .zeroDivisionError else .ok (s1 / s0)

/-- Embedding of `LearningNodeMean.total_weight` (lines 58-68):
`self.stats[0] if self.stats else 0.`. -/
def totalWeight (st : Stats) : Except Err ℚ :=
  if st.isEmpty then .ok 0 else statsGet st 0

end HTR

namespace SH

theorem set_getD_self {α : Type} : ∀ (l : List α) (i : ℕ) (d : α),
    l.set i (l[i]?.getD d) = l
  | [], _, _ => rfl
  | _ :: _, 0, _ => by simp
  | a :: t, i + 1, d => by
      simpa using congrArg (a :: ·) (set_getD_self t i d)

theorem candStep_opsU (b : Bool) (acc : List Unit × List Unit × ℕ) (i : ℕ) :
    candStep opsU b () () acc i = acc := by
  obtain ⟨ms, mets, best⟩ := acc
  simp [candStep, better, opsU, set_getD_self]

theorem foldl_candStep_opsU (b : Bool) (l : List ℕ)
    (acc : List Unit × List Unit × ℕ) :
    l.foldl (candStep opsU b () ()) acc = acc := by
  induction l with
  | nil => rfl
  | cons a t ih => simp [List.foldl_cons, candStep_opsU, ih]

theorem pyInsert_of_true {le : ℕ → ℕ → Bool} (h : ∀ i j, le i j = true)
    (a : ℕ) (l : List ℕ) : pyInsert le a l = a :: l := by
  cases l with
  | nil => rfl
  | cons b t => simp [pyInsert, h]

theorem pySort_of_true {le : ℕ → ℕ → Bool} (h : ∀ i j, le i j = true) :
    ∀ l : List ℕ, pySort le l = l
  | [] => rfl
  | a :: t => by rw [pySort, pySort_of_true h t, pyInsert_of_true h]

theorem rankLe_opsU (f : ℕ → Unit) (i j : ℕ) :
    rankLe opsU (fun k => opsU.get (f k)) i j = true := by
  simp [rankLe, opsU]

/-- For unit collaborators `fit_one` is exactly the counter step. -/
theorem fitOne_opsU (st : SHState Unit Unit) :
    fitOne opsU st () () = stepU st := by
  simp only [fitOne, stepU, foldl_candStep_opsU,
    pySort_of_true (rankLe_opsU _), List.take_append_drop]

/-- Splitting an iterated run. -/
theorem fitMany_add {M Mr X Y P : Type} [Inhabited M] [Inhabited Mr]
    (ops : Ops M Mr X Y P) (x : X) (y : Y) :
    ∀ (a b : ℕ) (st : SHState M Mr),
      fitMany ops x y (a + b) st = fitMany ops x y b (fitMany ops x y a st)
  | 0, b, st => by simp [fitMany]
  | a + 1, b, st => by
      rw [Nat.succ_add, fitMany, fitMany, fitMany_add ops x y a b]

/-- A span of observations during which the rung boundary is never reached
only advances the cumulative iteration counter. -/
theorem fitMany_opsU_no_fire :
    ∀ (k : ℕ) (st : SHState Unit Unit),
      (∀ j, j < k → ¬(1 < st.s ∧ st.nIterations + j + 1 = st.r)) →
      fitMany opsU () () k st = { st with nIterations := st.nIterations + k }
  | 0, st, _ => rfl
  | k + 1, st, h => by
      rw [fitMany, fitOne_opsU, stepU, if_neg (by simpa using h 0 k.succ_pos)]
      rw [fitMany_opsU_no_fire k _ (fun j hj => by
        simpa [Nat.add_assoc, Nat.add_comm 1 j] using h (j + 1) (by omega))]
      simp [Nat.add_assoc, Nat.add_comm 1 k]

theorem runU_add (a b : ℕ) : runU (a + b) = fitMany opsU () () b (runU a) :=
  fitMany_add opsU () () a b st10

theorem runU_49 : runU 49 = { st10 with nIterations := 49 } :=
  fitMany_opsU_no_fire 49 st10 (by decide)

theorem runU_50 : runU 50 = stA := by
  have h : runU (49 + 1) = fitMany opsU () () 1 (runU 49) := runU_add 49 1
  norm_num at h
  rw [h, runU_49,
    show ∀ st, fitMany opsU () () 1 st = fitOne opsU st () () from fun _ => rfl,
    fitOne_opsU]
  decide

theorem runU_99 : runU 99 = { stA with nIterations := 99 } := by
  have h : runU (50 + 49) = fitMany opsU () () 49 (runU 50) := runU_add 50 49
  norm_num at h
  rw [h, runU_50, fitMany_opsU_no_fire 49 stA (by decide)]
  decide

theorem runU_100 : runU 100 = stB := by
  have h : runU (99 + 1) = fitMany opsU () () 1 (runU 99) := runU_add 99 1
  norm_num at h
  rw [h, runU_99,
    show ∀ st, fitMany opsU () () 1 st = fitOne opsU st () () from fun _ => rfl,
    fitOne_opsU]
  decide

theorem runU_165 : runU 165 = { stB with nIterations := 165 } := by
  have h : runU (100 + 65) = fitMany opsU () () 65 (runU 100) := runU_add 100 65
  norm_num at h
  rw [h, runU_100, fitMany_opsU_no_fire 65 stB (by decide)]
  decide

theorem runU_166 : runU 166 = stC := by
  have h : runU (165 + 1) = fitMany opsU () () 1 (runU 165) := runU_add 165 1
  norm_num at h
  rw [h, runU_165,
    show ∀ st, fitMany opsU () () 1 st = fitOne opsU st () () from fun _ => rfl,
    fitOne_opsU]
  decide

theorem runU_249 : runU 249 = { stC with nIterations := 249 } := by
  have h : runU (166 + 83) = fitMany opsU () () 83 (runU 166) := runU_add 166 83
  norm_num at h
  rw [h, runU_166, fitMany_opsU_no_fire 83 stC (by decide)]
  decide

theorem runU_250 : runU 250 = stD := by
  have h : runU (249 + 1) = fitMany opsU () () 1 (runU 249) := runU_add 249 1
  norm_num at h
  rw [h, runU_249,
    show ∀ st, fitMany opsU () () 1 st = fitOne opsU st () () from fun _ => rfl,
    fitOne_opsU]
  decide

theorem runU_after_250 (k : ℕ) :
    runU (250 + k) = { stD with nIterations := 250 + k } := by
  rw [runU_add 250 k, runU_250, fitMany_opsU_no_fire k stD (by simp [stD])]
  simp [stD, stC, stB, stA, st10]

end SH

namespace SH

theorem runU_149 : runU 149 = { stB with nIterations := 149 } := by
  have h : runU (100 + 49) = fitMany opsU () () 49 (runU 100) := runU_add 100 49
  norm_num at h
  rw [h, runU_100, fitMany_opsU_no_fire 49 stB (by decide)]
  decide

theorem runU_150 : runU 150 = { stB with nIterations := 150 } := by
  have h : runU (100 + 50) = fitMany opsU () () 50 (runU 100) := runU_add 100 50
  norm_num at h
  rw [h, runU_100, fitMany_opsU_no_fire 50 stB (by decide)]
  decide

/-- Claim C1, counterexample.  The claim asserts that rung 2 fires 100
iterations after rung 1 (hence at cumulative iteration 150, with 5 survivors
throughout iterations 50..149).  In the code the iteration counter is
cumulative and rung 2 fires when it reaches `r(5) = 100`, i.e. only 50
observations after rung 1: at iteration 100 the pool is already down to 3,
and nothing fires at iteration 150. -/
theorem c1_counterexample :
    (runU 50).nRungs = 1 ∧ (runU 50).s = 5
  ∧ (runU 100).nRungs = 2 ∧ (runU 100).s = 3
  ∧ (runU 149).s = 3 ∧ (runU 150).nRungs = 2 := by
  rw [runU_50, runU_100, runU_149, runU_150]
  decide

/-- Claim C1, amended.  Reference configuration `n = 10`, `eta = 2`,
`budget = 2000`: rung 1 fires at cumulative iteration 50 and removes 5
(10 to 5, budget_used 500); rung 2 fires 50 further iterations later, at
cumulative iteration `100 = r(5)` and removes 2 (5 to 3, budget_used 1000);
rung 3 fires 66 further iterations later (cumulative 166) and removes 1
(3 to 2, budget_used 1498); rung 4 fires 84 further iterations later
(cumulative 250) and removes 1 (2 to 1, budget_used 1998); afterwards `s`
stays at 1 forever. -/
theorem c1_trace :
    initSH opsU (List.replicate 10 ()) () 2000 2 = .ok st10
  ∧ (runU 49).nRungs = 0 ∧ (runU 49).s = 10 ∧ (runU 49).budgetUsed = 0
  ∧ (runU 50).nRungs = 1 ∧ (runU 50).s = 5 ∧ (runU 50).budgetUsed = 500
  ∧ (runU 99).nRungs = 1 ∧ (runU 99).s = 5 ∧ (runU 99).budgetUsed = 500
  ∧ (runU 100).nRungs = 2 ∧ (runU 100).s = 3 ∧ (runU 100).budgetUsed = 1000
  ∧ (runU 165).nRungs = 2 ∧ (runU 165).s = 3 ∧ (runU 165).budgetUsed = 1000
  ∧ (runU 166).nRungs = 3 ∧ (runU 166).s = 2 ∧ (runU 166).budgetUsed = 1498
  ∧ (runU 249).nRungs = 3 ∧ (runU 249).s = 2 ∧ (runU 249).budgetUsed = 1498
  ∧ (runU 250).nRungs = 4 ∧ (runU 250).s = 1 ∧ (runU 250).budgetUsed = 1998
  ∧ ∀ k, (runU (250 + k)).nRungs = 4 ∧ (runU (250 + k)).s = 1
      ∧ (runU (250 + k)).budgetUsed = 1998 := by
  rw [runU_49, runU_50, runU_99, runU_100, runU_165, runU_166, runU_249,
    runU_250]
  refine ⟨rfl, rfl, rfl, rfl, rfl, rfl, rfl, rfl, rfl, rfl, rfl, rfl, rfl,
    rfl, rfl, rfl, rfl, rfl, rfl, rfl, rfl, rfl, rfl, rfl, rfl, fun k => ?_⟩
  rw [runU_after_250 k]
  exact ⟨rfl, rfl, rfl⟩

/-- Claim C2, counterexample.  The claim asserts that at a rung boundary the
iterations-in-rung counter is reset to 0 so that the next elimination fires
`r(new_s)` observations after the previous one.  In the code `_n_iterations`
is never reset: right after rung 1 it holds 50 (not 0), and with
`r(5) = 100` the next elimination fires only 50 observations later, at
cumulative iteration 100. -/
theorem c2_counterexample :
    (runU 50).nRungs = 1 ∧ (runU 50).nIterations = 50 ∧ (runU 50).r = 100
  ∧ (runU 100).nRungs = 2 ∧ (runU 100).nIterations = 100 := by
  rw [runU_50, runU_100]
  decide

/-- Claim C2, amended.  The iteration counter is cumulative: every
`fit_one` call increments it by exactly 1 and it is never reset at a rung
boundary; an elimination fires exactly when `s > 1` and the cumulative count
reaches the current rung length `r`, so (while the counter keeps growing)
the next elimination fires when the cumulative count equals `r(new_s)`, not
`r(new_s)` observations after the previous elimination. -/
theorem c2_amended {M Mr X Y P : Type} [Inhabited M] [Inhabited Mr]
    (ops : Ops M Mr X Y P) (st : SHState M Mr) (x : X) (y : Y) :
    (fitOne ops st x y).nIterations = st.nIterations + 1
  ∧ ((fitOne ops st x y).nRungs = st.nRungs + 1 ↔
      1 < st.s ∧ st.nIterations + 1 = st.r) := by
  simp only [fitOne]
  split
  next h => exact ⟨rfl, iff_of_true rfl h⟩
  next h => exact ⟨rfl, iff_of_false (by simp) h⟩

theorem fitOne_r_zero {M Mr X Y P : Type} [Inhabited M] [Inhabited Mr]
    (ops : Ops M Mr X Y P) (st : SHState M Mr) (x : X) (y : Y)
    (hr : st.r = 0) :
    (fitOne ops st x y).nRungs = st.nRungs ∧ (fitOne ops st x y).s = st.s
  ∧ (fitOne ops st x y).r = 0
  ∧ (fitOne ops st x y).nIterations = st.nIterations + 1 := by
  simp only [fitOne]
  rw [if_neg (by omega)]
  exact ⟨rfl, rfl, hr, rfl⟩

/-- Claim C3, counterexample.  With `n = 10`, `eta = 2`, `budget = 1` the
rung length is computed as `r = 0` while `s = 10 > 1`.  The claim asserts
the rung boundary then fires on every observation; in the code the
cumulative iteration count is at least 1 after any observation and can never
equal 0, so no elimination step is executed at all. -/
theorem c3_counterexample :
    initSH opsU (List.replicate 10 ()) () 1 2 = .ok stZ
  ∧ stZ.r = 0 ∧ 1 < stZ.s
  ∧ (fitOne opsU stZ () ()).nRungs = 0
  ∧ (fitOne opsU stZ () ()).s = 10 := by
  refine ⟨rfl, rfl, by decide, ?_, ?_⟩ <;> (rw [fitOne_opsU]; decide)

/-- Claim C3, amended.  If the computed rung length `r` equals 0 (possible
for extreme budget/pool-size combinations, e.g. `n = 10`, `eta = 2`,
`budget = 1`), the rung boundary never fires, no matter how many
observations arrive and even though `s > 1`: the active count, rung count
and rung length stay frozen while the cumulative iteration count grows.
The configuration is not treated as an error. -/
theorem c3_amended {M Mr X Y P : Type} [Inhabited M] [Inhabited Mr]
    (ops : Ops M Mr X Y P) (st : SHState M Mr) (hr : st.r = 0)
    (x : X) (y : Y) (k : ℕ) :
    (fitMany ops x y k st).nRungs = st.nRungs
  ∧ (fitMany ops x y k st).s = st.s
  ∧ (fitMany ops x y k st).r = 0
  ∧ (fitMany ops x y k st).nIterations = st.nIterations + k := by
  induction k generalizing st with
  | zero => exact ⟨rfl, rfl, hr, rfl⟩
  | succ k ih =>
      have h1 := fitOne_r_zero ops st x y hr
      have h2 := ih (fitOne ops st x y) h1.2.2.1
      simp only [fitMany]
      refine ⟨h2.1.trans h1.1, h2.2.1.trans h1.2.1, h2.2.2.1, ?_⟩
      rw [h2.2.2.2, h1.2.2.2]
      omega

/-- Claim C3 witness: the amended statement evaluated on the concrete
`r = 0` configuration after 5 observations. -/
theorem c3_witness :
    stZ.r = 0
  ∧ (fitMany opsU () () 5 stZ).nRungs = stZ.nRungs
  ∧ (fitMany opsU () () 5 stZ).s = stZ.s := by
  exact ⟨rfl, (c3_amended opsU stZ rfl () () 5).1,
    (c3_amended opsU stZ rfl () () 5).2.1⟩

/-- Claim C4, counterexample.  The claim asserts construction raises a
configuration error — and never a division error — for `eta ≤ 1` and
`n ≤ 1`.  In the code those two cases reach line 33 unguarded and die with
`ZeroDivisionError` instead: `math.log(10, 1)` divides by `log(1) = 0`,
and `n = 1` makes the divisor `s * ceil(log(1, 2)) = 0`. -/
theorem c4_counterexample :
    initSH opsU (List.replicate 10 ()) () 2000 1 = .error .zeroDivisionError
  ∧ initSH opsU [()] () 2000 2 = .error .zeroDivisionError
  ∧ PyErr.zeroDivisionError ≠ PyErr.configValueError := by
  exact ⟨rfl, rfl, by decide⟩

/-- Claim C4, amended.  Before any observation is processed, construction
raises the configuration `ValueError` exactly for a learner incompatible
with the metric (checked first, for every learner); with compatible
learners, `n ≥ 2` and `eta ≥ 2` construction succeeds, while `n = 1` or
`eta = 1` instead raise `ZeroDivisionError` — a division fault, not the
configuration error. -/
theorem c4_amended {M Mr X Y P : Type} (ops : Ops M Mr X Y P)
    (models : List M) (metric : Mr) (budget eta : ℕ) :
    ((∃ m ∈ models, ops.worksWith m = false) →
      initSH ops models metric budget eta = .error .configValueError)
  ∧ ((∀ m ∈ models, ops.worksWith m = true) → 2 ≤ models.length → 2 ≤ eta →
      ∃ st, initSH ops models metric budget eta = .ok st)
  ∧ ((∀ m ∈ models, ops.worksWith m = true) → models.length = 1 → 2 ≤ eta →
      initSH ops models metric budget eta = .error .zeroDivisionError)
  ∧ ((∀ m ∈ models, ops.worksWith m = true) → 1 ≤ models.length → eta = 1 →
      initSH ops models metric budget eta = .error .zeroDivisionError) := by
  refine ⟨fun ⟨m, hm, hw⟩ => ?_, fun hc h2 he => ?_, fun hc h1 he => ?_,
    fun hc h1 he => ?_⟩
  · rw [initSH, if_pos (List.any_eq_true.mpr ⟨m, hm, by simp [hw]⟩)]
  all_goals
    have hb : (models.any fun m => !ops.worksWith m) = false := by
      rw [List.any_eq_false]
      intro m hm
      simp [hc m hm]
  · rw [initSH, if_neg (by simp [hb]), if_neg (by omega), if_neg (by omega),
      if_neg (by omega), if_neg (by omega)]
    exact ⟨_, rfl⟩
  · rw [initSH, if_neg (by simp [hb]), if_neg (by omega), if_neg (by omega),
      if_neg (by omega), if_pos h1]
  · rw [initSH, if_neg (by simp [hb]), if_neg (by omega), if_neg (by omega),
      if_pos he]

/-- Claim C4 witness: the amended statement evaluated on concrete
configurations (an `eta = 1` pool of two compatible learners, and a
singleton pool with `eta = 2`). -/
theorem c4_witness :
    initSH opsU (List.replicate 2 ()) () 7 1 = .error .zeroDivisionError
  ∧ initSH opsU [()] () 7 2 = .error .zeroDivisionError := by
  exact ⟨(c4_amended opsU (List.replicate 2 ()) () 7 1).2.2.2
      (by decide) (by decide) rfl,
    (c4_amended opsU [()] () 7 2).2.2.1 (by decide) rfl (by decide)⟩

end SH

namespace SH

theorem cutoffQ_le_self (eta : ℚ) (heta : 1 < eta) (s : ℕ) :
    cutoffQ eta s ≤ s :=
  Nat.ceil_le.mpr (div_le_self (by positivity) heta.le)

theorem cutoffQ_one (eta : ℚ) (heta : 1 < eta) : cutoffQ eta 1 = 1 := by
  refine le_antisymm (Nat.ceil_le.mpr ?_) (Nat.ceil_pos.mpr (by positivity))
  rw [Nat.cast_one, div_le_one (by positivity)]
  exact heta.le

theorem cutoffQ_pos (eta : ℚ) (heta : 1 < eta) (s : ℕ) (hs : 1 ≤ s) :
    1 ≤ cutoffQ eta s := by
  refine Nat.ceil_pos.mpr (div_pos ?_ (by positivity))
  exact_mod_cast hs

theorem cutoffQ_lt_self (eta : ℚ) (h2 : 2 ≤ eta) (s : ℕ) (hs : 2 ≤ s) :
    cutoffQ eta s < s := by
  have hsq : (2 : ℚ) ≤ (s : ℚ) := by exact_mod_cast hs
  have ha : (s : ℚ) / eta ≤ (s : ℚ) / 2 :=
    (div_le_div_iff_of_pos_left (by linarith) (by linarith) (by norm_num)).mpr h2
  have hb : (s : ℚ) / 2 ≤ ((s - 1 : ℕ) : ℚ) := by
    rw [Nat.cast_sub (by omega), Nat.cast_one]
    linarith
  have hle : cutoffQ eta s ≤ s - 1 := Nat.ceil_le.mpr (ha.trans hb)
  omega

theorem cutoffQ_reach (eta : ℚ) (h2 : 2 ≤ eta) :
    ∀ s, 1 ≤ s → ∀ k, s ≤ k → (cutoffQ eta)^[k] s = 1 := by
  have heta : 1 < eta := lt_of_lt_of_le one_lt_two h2
  have hfix : ∀ k, (cutoffQ eta)^[k] 1 = 1 := by
    intro k
    induction k with
    | zero => rfl
    | succ k ih => rw [Function.iterate_succ_apply, cutoffQ_one eta heta, ih]
  intro s
  induction s using Nat.strong_induction_on with
  | _ s ih =>
    intro hs k hk
    rcases Nat.lt_or_ge s 2 with hlt | hge
    · have : s = 1 := by omega
      subst this
      exact hfix k
    · obtain ⟨k2, rfl⟩ : ∃ k2, k = k2 + 1 := ⟨k - 1, by omega⟩
      rw [Function.iterate_succ_apply]
      have hlt2 := cutoffQ_lt_self eta h2 s hge
      exact ih (cutoffQ eta s) hlt2 (cutoffQ_pos eta heta s (by omega))
        k2 (by omega)

/-- Claim C5, counterexample.  For the real elimination rate `eta = 3/2 > 1`
the active-count sequence starting at a pool of size 2 is not strictly
decreasing: `cutoff(2) = ceil(2 / (3/2)) = ceil(4/3) = 2`, so 2 is a fixed
point and the sequence never reaches 1. -/
theorem c5_counterexample :
    (1 : ℚ) < 3 / 2 ∧ cutoffQ (3 / 2) 2 = 2 ∧ (2 : ℕ) ≠ 1 := by
  refine ⟨by norm_num, ?_, by decide⟩
  rw [cutoffQ, Nat.ceil_eq_iff (by norm_num)]
  norm_num

/-- Claim C5, amended.  For every rational `eta > 1` and integer `s ≥ 1`:
`cutoff(s) = ceil(s / eta)` satisfies `cutoff(s) ≤ s` (so the active-count
sequence never increases), `cutoff(1) = 1`, and `cutoff(s) ≥ 1`; when
moreover `eta ≥ 2` (as in the code's default and reference configuration),
`cutoff` strictly decreases every `s ≥ 2`, and the sequence
`s, cutoff(s), cutoff(cutoff(s)), ...` reaches the fixed point 1 (within
`s` steps).  For `1 < eta < 2` the strict decrease fails. -/
theorem c5_amended (eta : ℚ) (heta : 1 < eta) (s : ℕ) (hs : 1 ≤ s) :
    cutoffQ eta s ≤ s
  ∧ cutoffQ eta 1 = 1
  ∧ 1 ≤ cutoffQ eta s
  ∧ (2 ≤ eta → 2 ≤ s → cutoffQ eta s < s)
  ∧ (2 ≤ eta → (cutoffQ eta)^[s] s = 1) :=
  ⟨cutoffQ_le_self eta heta s, cutoffQ_one eta heta,
   cutoffQ_pos eta heta s hs,
   fun h2 hs2 => cutoffQ_lt_self eta h2 s hs2,
   fun h2 => cutoffQ_reach eta h2 s hs s le_rfl⟩

/-- Claim C5 witness: the amended statement evaluated at `eta = 2`,
`s = 5`. -/
theorem c5_witness :
    cutoffQ 2 5 ≤ 5 ∧ cutoffQ 2 1 = 1 ∧ (cutoffQ 2)^[5] 5 = 1 :=
  ⟨(c5_amended 2 (by norm_num) 5 (by norm_num)).1,
   (c5_amended 2 (by norm_num) 5 (by norm_num)).2.1,
   (c5_amended 2 (by norm_num) 5 (by norm_num)).2.2.2.2 (by norm_num)⟩

end SH

namespace SH

theorem candStep_fst {M Mr X Y P : Type} [Inhabited M] [Inhabited Mr]
    (ops : Ops M Mr X Y P) (b : Bool) (x : X) (y : Y)
    (acc : List M × List Mr × ℕ) (i : ℕ) :
    (candStep ops b x y acc i).1 =
      acc.1.set i (ops.fitOneM (acc.1.getD i default) x y) := rfl

theorem candStep_snd_fst {M Mr X Y P : Type} [Inhabited M] [Inhabited Mr]
    (ops : Ops M Mr X Y P) (b : Bool) (x : X) (y : Y)
    (acc : List M × List Mr × ℕ) (i : ℕ) :
    (candStep ops b x y acc i).2.1 =
      acc.2.1.set i (ops.update (acc.2.1.getD i default) y
        (predFunc ops b (acc.1.getD i default) x)) := rfl

theorem foldl_candStep_length {M Mr X Y P : Type} [Inhabited M] [Inhabited Mr]
    (ops : Ops M Mr X Y P) (b : Bool) (x : X) (y : Y) :
    ∀ (l : List ℕ) (acc : List M × List Mr × ℕ),
      (l.foldl (candStep ops b x y) acc).1.length = acc.1.length
    ∧ (l.foldl (candStep ops b x y) acc).2.1.length = acc.2.1.length
  | [], _ => ⟨rfl, rfl⟩
  | a :: t, acc => by
      rw [List.foldl_cons]
      have ih := foldl_candStep_length ops b x y t (candStep ops b x y acc a)
      rw [ih.1, ih.2, candStep_fst, candStep_snd_fst, List.length_set,
        List.length_set]
      exact ⟨rfl, rfl⟩

theorem foldl_candStep_untouched {M Mr X Y P : Type} [Inhabited M]
    [Inhabited Mr] (ops : Ops M Mr X Y P) (b : Bool) (x : X) (y : Y) :
    ∀ (l : List ℕ) (acc : List M × List Mr × ℕ) (i : ℕ), i ∉ l →
      (l.foldl (candStep ops b x y) acc).1[i]? = acc.1[i]?
    ∧ (l.foldl (candStep ops b x y) acc).2.1[i]? = acc.2.1[i]?
  | [], _, _, _ => ⟨rfl, rfl⟩
  | a :: t, acc, i, h => by
      have hia : a ≠ i := fun he => h (he ▸ List.mem_cons_self a t)
      have ht : i ∉ t := fun hm => h (List.mem_cons_of_mem a hm)
      rw [List.foldl_cons]
      have ih := foldl_candStep_untouched ops b x y t
        (candStep ops b x y acc a) i ht
      refine ⟨ih.1.trans ?_, ih.2.trans ?_⟩
      · rw [candStep_fst, List.getElem?_set_ne hia]
      · rw [candStep_snd_fst, List.getElem?_set_ne hia]

theorem foldl_candStep_active {M Mr X Y P : Type} [Inhabited M] [Inhabited Mr]
    (ops : Ops M Mr X Y P) (b : Bool) (x : X) (y : Y) :
    ∀ (l : List ℕ) (acc : List M × List Mr × ℕ) (i : ℕ), l.Nodup →
      i ∈ l → i < acc.1.length → i < acc.2.1.length →
      (l.foldl (candStep ops b x y) acc).1[i]? =
        some (ops.fitOneM (acc.1.getD i default) x y)
    ∧ (l.foldl (candStep ops b x y) acc).2.1[i]? =
        some (ops.update (acc.2.1.getD i default) y
          (predFunc ops b (acc.1.getD i default) x))
  | [], _, i, _, hm, _, _ => absurd hm (List.not_mem_nil i)
  | a :: t, acc, i, hnd, hm, h1, h2 => by
      rw [List.foldl_cons]
      rcases List.mem_cons.mp hm with rfl | hmt
      · have hat : i ∉ t := (List.nodup_cons.mp hnd).1
        have hun := foldl_candStep_untouched ops b x y t
          (candStep ops b x y acc i) i hat
        rw [hun.1, hun.2, candStep_fst, candStep_snd_fst]
        exact ⟨List.getElem?_set_self h1, List.getElem?_set_self h2⟩
      · have hia : a ≠ i := fun he => (List.nodup_cons.mp hnd).1 (he ▸ hmt)
        have e1 : (candStep ops b x y acc a).1.getD i default =
            acc.1.getD i default := by
          rw [List.getD_eq_getElem?_getD, List.getD_eq_getElem?_getD,
            candStep_fst, List.getElem?_set_ne hia]
        have e2 : (candStep ops b x y acc a).2.1.getD i default =
            acc.2.1.getD i default := by
          rw [List.getD_eq_getElem?_getD, List.getD_eq_getElem?_getD,
            candStep_snd_fst, List.getElem?_set_ne hia]
        have ih := foldl_candStep_active ops b x y t
          (candStep ops b x y acc a) i (List.nodup_cons.mp hnd).2 hmt
          (by rw [candStep_fst, List.length_set]; exact h1)
          (by rw [candStep_snd_fst, List.length_set]; exact h2)
        rw [e1, e2] at ih
        exact ih

/-- Claim C6: in every `fit_one` call, each active candidate is scored with
the prediction of its learner state from before this call trained it: the
new metric accumulator is `update(old metric, y, pred(old model, x))` and
the new model is `fit(old model, x, y)` — progressive validation, score
strictly before train. -/
theorem c6_score_before_train {M Mr X Y P : Type} [Inhabited M] [Inhabited Mr]
    (ops : Ops M Mr X Y P) (st : SHState M Mr) (x : X) (y : Y) (i : ℕ)
    (hnd : (st.rankings.take st.s).Nodup) (hi : i ∈ st.rankings.take st.s)
    (h1 : i < st.models.length) (h2 : i < st.metrics.length) :
    (fitOne ops st x y).metrics[i]? =
      some (ops.update (st.metrics.getD i default) y
        (predFunc ops st.usesProba (st.models.getD i default) x))
  ∧ (fitOne ops st x y).models[i]? =
      some (ops.fitOneM (st.models.getD i default) x y) := by
  have hfold := foldl_candStep_active ops st.usesProba x y
    (st.rankings.take st.s) (st.models, st.metrics, st.bestModelIdx) i
    hnd hi h1 h2
  simp only [fitOne]
  split <;> exact ⟨hfold.2, hfold.1⟩

/-- Claim C6 witness: the statement evaluated for candidate 0 of the
reference configuration on one observation. -/
theorem c6_witness :
    (fitOne opsU st10 () ()).metrics[0]? =
      some (opsU.update (st10.metrics.getD 0 default) ()
        (predFunc opsU st10.usesProba (st10.models.getD 0 default) ()))
  ∧ (fitOne opsU st10 () ()).models[0]? =
      some (opsU.fitOneM (st10.models.getD 0 default) () ()) :=
  c6_score_before_train opsU st10 () () 0 (by decide) (by decide)
    (by decide) (by decide)

theorem foldl_candStep_best {M Mr X Y P : Type} [Inhabited M] [Inhabited Mr]
    (ops : Ops M Mr X Y P) (b : Bool) (x : X) (y : Y) :
    ∀ (l : List ℕ) (acc : List M × List Mr × ℕ),
      (l.foldl (candStep ops b x y) acc).2.2 = acc.2.2
    ∨ (l.foldl (candStep ops b x y) acc).2.2 ∈ l
  | [], _ => Or.inl rfl
  | a :: t, acc => by
      rw [List.foldl_cons]
      rcases foldl_candStep_best ops b x y t (candStep ops b x y acc a)
        with h | h
      · obtain ⟨ms, mets, best⟩ := acc
        simp only [candStep] at h ⊢
        rw [h]
        split
        · exact Or.inr (List.mem_cons_self a t)
        · exact Or.inl rfl
      · exact Or.inr (List.mem_cons_of_mem a h)

/-- Claim C7, amended.  The per-candidate best-pointer update changes the
pointer only to the just-scored candidate `i`, only when `i` was not already
best and the freshly updated metric values show a strict improvement under
the metric's orientation; consequently a `fit_one` call that changes the
pointer can only point it at one of the candidates of the active prefix.
The claim's monotonicity of the best-held metric value is dropped: the best
candidate's own accumulator keeps evolving and may worsen (see the
counterexample), with no reassignment triggered. -/
theorem c7_amended {M Mr X Y P : Type} [Inhabited M] [Inhabited Mr]
    (ops : Ops M Mr X Y P) :
    (∀ (b : Bool) (x : X) (y : Y) (acc : List M × List Mr × ℕ) (i : ℕ),
      (candStep ops b x y acc i).2.2 ≠ acc.2.2 →
        (candStep ops b x y acc i).2.2 = i ∧ i ≠ acc.2.2
      ∧ better ops (ops.get ((candStep ops b x y acc i).2.1.getD i default))
          (ops.get ((candStep ops b x y acc i).2.1.getD acc.2.2 default))
          = true)
  ∧ (∀ (st : SHState M Mr) (x : X) (y : Y),
      (fitOne ops st x y).bestModelIdx ≠ st.bestModelIdx →
        (fitOne ops st x y).bestModelIdx ∈ st.rankings.take st.s) := by
  constructor
  · intro b x y acc i hne
    obtain ⟨ms, mets, best⟩ := acc
    simp only [candStep] at hne ⊢
    split at hne
    · next hcond => rw [if_pos hcond]; exact ⟨rfl, hcond.1, hcond.2⟩
    · exact absurd rfl hne
  · intro st x y hne
    have he : (fitOne ops st x y).bestModelIdx =
        ((st.rankings.take st.s).foldl (candStep ops st.usesProba x y)
          (st.models, st.metrics, st.bestModelIdx)).2.2 := by
      simp only [fitOne]
      split <;> rfl
    rw [he] at hne ⊢
    rcases foldl_candStep_best ops st.usesProba x y (st.rankings.take st.s)
      (st.models, st.metrics, st.bestModelIdx) with h | h
    · exact absurd h hne
    · exact h

/-- Claim C7, counterexample to the monotonicity half.  With a
higher-is-better metric that tracks the last observed label, two identical
candidates score 5 after the first observation, and the best-so-far
candidate holds value 5; the next observation drops both accumulators
to 1.  No reassignment fires (there is never a strict improvement over the
best), and the value held by the best-so-far candidate worsens from 5 to 1:
it is not monotonically non-worsening. -/
theorem c7_counterexample :
    initSH opsLast [(), ()] (0 : ℚ) 100 2 = .ok stL
  ∧ opsLast.biggerIsBetter = true
  ∧ bestValue opsLast (fitOne opsLast stL () 5) = 5
  ∧ bestValue opsLast (fitOne opsLast (fitOne opsLast stL () 5) () 1) = 1
  ∧ (1 : ℚ) < 5 := by
  refine ⟨rfl, rfl, ?_, ?_, by norm_num⟩ <;> decide

/-- Claim C7 witness: the amended statement evaluated where a reassignment
does occur (candidate 1 strictly beats candidate 0). -/
theorem c7_witness :
    (fitOne opsP stP () ()).bestModelIdx ∈ stP.rankings.take stP.s
  ∧ (candStep opsP false () () (stP.models, stP.metrics, 0) 1).2.2 = 1 :=
  ⟨(c7_amended opsP).2 stP () () (by decide),
   ((c7_amended opsP).1 false () () (stP.models, stP.metrics, 0) 1
     (by decide)).1⟩

end SH

namespace SH

/-- Claim C8, counterexample.  Two pools containing exactly the same
learners (one classifier-capable, one not), merely in swapped order, yield
opposite probabilistic-entry-point choices: the flag is read off
`isinstance(model, base.Classifier)` where `model` is the leftover variable
of the compatibility loop — the last learner — not the declared capability
of the candidates. -/
theorem c8_counterexample :
    ([true, false] : List Bool).Perm [false, true]
  ∧ usesProbaOf (initSH opsB [true, false] () 100 2) = some false
  ∧ usesProbaOf (initSH opsB [false, true] () 100 2) = some true :=
  ⟨List.Perm.swap false true [], rfl, rfl⟩

/-- Claim C8, amended.  The entry-point choice is made exactly once, at
construction, from the declared capability of the *last* supplied candidate
together with the metric's requirement; the stored flag is then never
modified by `fit_one` (or any number of iterations), so the single choice
is applied to every active candidate on every observation. -/
theorem c8_amended {M Mr X Y P : Type} [Inhabited M] [Inhabited Mr]
    (ops : Ops M Mr X Y P) (models : List M) (metric : Mr)
    (budget eta : ℕ) (st : SHState M Mr)
    (hok : initSH ops models metric budget eta = .ok st) :
    st.usesProba = ((match models.getLast? with
        | some m => ops.isClassifier m
        | none => false) && !ops.requiresLabels)
  ∧ (∀ (st2 : SHState M Mr) (x : X) (y : Y),
      (fitOne ops st2 x y).usesProba = st2.usesProba)
  ∧ (∀ (k : ℕ) (x : X) (y : Y),
      (fitMany ops x y k st).usesProba = st.usesProba) := by
  have hpres : ∀ (st2 : SHState M Mr) (x : X) (y : Y),
      (fitOne ops st2 x y).usesProba = st2.usesProba := by
    intro st2 x y
    simp only [fitOne]
    split <;> rfl
  have hmany : ∀ (x : X) (y : Y) (k : ℕ) (st2 : SHState M Mr),
      (fitMany ops x y k st2).usesProba = st2.usesProba := by
    intro x y k
    induction k with
    | zero => intro st2; rfl
    | succ k ih =>
        intro st2
        simp only [fitMany]
        rw [ih (fitOne ops st2 x y), hpres]
  refine ⟨?_, hpres, fun k x y => hmany x y k st⟩
  simp only [initSH] at hok
  split_ifs at hok
  all_goals injection hok with h
  rw [← h]

/-- Claim C8 witness: the amended statement evaluated on the mixed pool
`[true, false]` (the flag equals the last learner's capability and survives
a `fit_one` call). -/
theorem c8_witness :
    stBF.usesProba = ((match ([true, false] : List Bool).getLast? with
        | some m => opsB.isClassifier m
        | none => false) && !opsB.requiresLabels)
  ∧ (fitOne opsB stBF () ()).usesProba = stBF.usesProba :=
  ⟨(c8_amended opsB [true, false] () 100 2 stBF rfl).1,
   (c8_amended opsB [true, false] () 100 2 stBF rfl).2.1 stBF () ()⟩

theorem pyInsert_perm (le : ℕ → ℕ → Bool) (a : ℕ) :
    ∀ l : List ℕ, (pyInsert le a l).Perm (a :: l)
  | [] => List.Perm.refl _
  | b :: t => by
      rw [pyInsert]
      split
      · exact List.Perm.refl _
      · exact ((pyInsert_perm le a t).cons b).trans (List.Perm.swap a b t)

theorem pySort_perm (le : ℕ → ℕ → Bool) :
    ∀ l : List ℕ, (pySort le l).Perm l
  | [] => List.Perm.refl _
  | a :: t => (pyInsert_perm le a (pySort le t)).trans
      ((pySort_perm le t).cons a)

theorem cutoff_nat_le (s eta : ℕ) : (s + eta - 1) / eta ≤ s := by
  cases eta with
  | zero => simp
  | succ e =>
      rw [Nat.div_le_iff_le_mul_add_pred (Nat.succ_pos e)]
      have h := Nat.le_mul_of_pos_left s (Nat.succ_pos e)
      simpa using Nat.add_le_add_right h e

theorem not_mem_take_of_perm {A rk : List ℕ} {s c i : ℕ}
    (hA : A.Perm (rk.take s)) (hc : c ≤ s) (hi : i ∉ rk.take s) :
    i ∉ (A ++ rk.drop s).take c := by
  intro hmem
  rcases le_or_lt c A.length with hcA | hcA
  · rw [List.take_append_of_le_length hcA] at hmem
    exact hi (hA.subset (List.take_subset c A hmem))
  · have hlenA : A.length = (rk.take s).length := hA.length_eq
    rw [List.length_take] at hlenA
    have hdrop : rk.drop s = [] := List.drop_eq_nil_of_le (by omega)
    rw [hdrop, List.append_nil] at hmem
    exact hi (hA.subset (List.take_subset c A hmem))

/-- Claim C9: one `fit_one` call preserves candidate storage — the models
and per-candidate metrics lists keep all their entries; if the ranking is a
permutation of all `n` candidate ids it remains one; the active count never
grows; and a candidate outside the active prefix keeps its metric
accumulator untouched and stays outside the (shrunken) active prefix, so
its final metric value remains inspectable. -/
theorem c9_storage {M Mr X Y P : Type} [Inhabited M] [Inhabited Mr]
    (ops : Ops M Mr X Y P) (st : SHState M Mr) (x : X) (y : Y) :
    (fitOne ops st x y).models.length = st.models.length
  ∧ (fitOne ops st x y).metrics.length = st.metrics.length
  ∧ (st.rankings.Perm (List.range st.n) →
      (fitOne ops st x y).rankings.Perm (List.range st.n))
  ∧ (fitOne ops st x y).s ≤ st.s
  ∧ ∀ i, i ∉ st.rankings.take st.s →
      (fitOne ops st x y).metrics[i]? = st.metrics[i]?
    ∧ i ∉ (fitOne ops st x y).rankings.take (fitOne ops st x y).s := by
  have hlen := foldl_candStep_length ops st.usesProba x y
    (st.rankings.take st.s) (st.models, st.metrics, st.bestModelIdx)
  have hunt := fun i (hi : i ∉ st.rankings.take st.s) =>
    foldl_candStep_untouched ops st.usesProba x y (st.rankings.take st.s)
      (st.models, st.metrics, st.bestModelIdx) i hi
  simp only [fitOne]
  split
  next hcond =>
    refine ⟨hlen.1, hlen.2, fun hperm => ?_, cutoff_nat_le st.s st.eta,
      fun i hi => ⟨(hunt i hi).2,
        not_mem_take_of_perm (pySort_perm _ _) (cutoff_nat_le st.s st.eta) hi⟩⟩
    have h1 := (pySort_perm
      (rankLe ops fun i => ops.get
        (((st.rankings.take st.s).foldl (candStep ops st.usesProba x y)
          (st.models, st.metrics, st.bestModelIdx)).2.1.getD i default))
      (st.rankings.take st.s)).append_right (st.rankings.drop st.s)
    rw [List.take_append_drop] at h1
    exact h1.trans hperm
  next hcond =>
    exact ⟨hlen.1, hlen.2, fun hperm => hperm, le_rfl,
      fun i hi => ⟨(hunt i hi).2, hi⟩⟩

/-- Claim C9 witness: the statement evaluated on the reference
configuration, with the out-of-range candidate id 11. -/
theorem c9_witness :
    (fitOne opsU st10 () ()).models.length = st10.models.length
  ∧ (fitOne opsU st10 () ()).rankings.Perm (List.range st10.n)
  ∧ (fitOne opsU st10 () ()).metrics[11]? = st10.metrics[11]? :=
  ⟨(c9_storage opsU st10 () ()).1,
   (c9_storage opsU st10 () ()).2.2.1 (by decide),
   ((c9_storage opsU st10 () ()).2.2.2.2 11 (by decide)).1⟩

end SH

namespace HTR

/-- Claim C10, counterexample.  A single `update_stats` call with
`sample_weight = 0` (the class's own update path) makes the stats mapping
non-empty with a zero weight sum; `predict_one` then raises
`ZeroDivisionError` rather than returning the weighted mean, so the
non-empty clause of the claim fails as stated. -/
theorem c10_counterexample :
    (updateStats [] 3 0).isEmpty = false
  ∧ predictOne (updateStats [] 3 0) = .error .zeroDivisionError :=
  ⟨rfl, rfl⟩

/-- Claim C10, amended.  With an empty stats mapping, `predict_one` returns
`0.0` and `total_weight` returns `0.0`, performing no division and no key
lookup — the empty-leaf case cannot fault.  With slots 0 and 1 present and
a nonzero weight sum, `predict_one` returns the weighted target mean
`stats[1] / stats[0]` (and `total_weight` returns `stats[0]`); a non-empty
mapping with a zero weight sum instead faults with `ZeroDivisionError`. -/
theorem c10_amended (st : Stats) (s0 s1 : ℚ) :
    (st.isEmpty = true → predictOne st = .ok 0 ∧ totalWeight st = .ok 0)
  ∧ (st.lookup 0 = some s0 → st.lookup 1 = some s1 → s0 ≠ 0 →
      predictOne st = .ok (s1 / s0) ∧ totalWeight st = .ok s0) := by
  constructor
  · intro he
    exact ⟨by rw [predictOne, if_pos he], by rw [totalWeight, if_pos he]⟩
  · intro h0 h1 hs0
    have hne : st.isEmpty = false := by
      cases st with
      | nil => simp [List.lookup] at h0
      | cons a t => rfl
    constructor
    · rw [predictOne, if_neg (by simp [hne])]
      simp [statsGet, h0, h1, hs0]
    · rw [totalWeight, if_neg (by simp [hne]), statsGet, h0]

/-- Claim C10 witness: the amended statement evaluated on an empty leaf and
on the stats `{0: 2, 1: 3}`. -/
theorem c10_witness :
    predictOne ([] : Stats) = .ok 0
  ∧ totalWeight ([] : Stats) = .ok 0
  ∧ predictOne [((0 : ℕ), (2 : ℚ)), (1, 3)] = .ok (3 / 2) :=
  ⟨((c10_amended [] 0 0).1 rfl).1,
   ((c10_amended [] 0 0).1 rfl).2,
   ((c10_amended [(0, 2), (1, 3)] 2 3).2 rfl rfl (by norm_num)).1⟩

end HTR
